import Mathlib

/-
Verification development for the HRIndex grounded-citation pipeline.

The repository carries two variants of the Gemini service layer:

* `HRIndex.Grounded` — the search-grounded, index-validated pipeline
  (the service listing embedded in README.md): grounding-chunk extraction,
  the domain-trust/accessibility policy, the scope-specific search
  instructions, and the urlIndex-validating result parser.
* `HRIndex.Basic` — the variant at src/src/services/gemini.ts: no grounding
  metadata and no trust filter; on failure each operation returns a fixed
  single-placeholder result, and getSemanticRights coerces malformed JSON.

External model calls are stubbed as explicit `Except`-valued oracle
parameters (an `.error` models a thrown call or a JSON.parse failure); the
`Nat` component returned by the grounded operations counts how many model
invocations were issued.  Prompt strings that only feed the stubbed model
are elided; instruction text that a claim is about (getScopeSearchInstructions)
is transcribed in full.  JS `number` values are modelled as `Rat`
(Number.isInteger corresponds to den = 1), JS string falsiness as the
test against the empty string, and `undefined` as `Option.none`.
-/

set_option maxRecDepth 20000

namespace HRIndex

/-- Character-wise lowercasing, modelling JS String.prototype.toLowerCase
(sufficient for the ASCII domain patterns used by the policy). -/
def jsToLower (s : String) : String := ⟨s.data.map Char.toLower⟩

/-- Occurrence of `pat` as a contiguous subsequence of a character list. -/
def containsSub (pat : List Char) : List Char → Bool
  | [] => pat.isPrefixOf []
  | a :: t => pat.isPrefixOf (a :: t) || containsSub pat t

/-- JS `s.includes(pat)`. -/
def jsIncludes (s pat : String) : Bool := containsSub pat.data s.data

/-- Truthiness of a possibly-undefined JS string (`undefined` and `""` are falsy). -/
def jsTruthy : Option String → Bool
  | none => false
  | some t => !(t == "")

/-- JS `x || "N/A"` on a possibly-undefined string. -/
def jsOrNA : Option String → String
  | none => "N/A"
  | some t => if t == "" then "N/A" else t

/-- The three policy categories of `TRUSTED_DOMAINS` (the `sourceType`
argument threaded through the grounded pipeline). -/
inductive SourceType where
  | legal
  | ngo
  | academic
deriving DecidableEq

namespace Grounded

/-- A source surfaced by the search step (title, uri), as built from a
grounding chunk. -/
structure Candidate where
  title : String
  uri : String
deriving DecidableEq

/-- One element of the model's `sourceMatches` array (response schema:
urlIndex : NUMBER, title : STRING, year : STRING optional,
reference : STRING).  Untrusted model output. -/
structure CitationDraft where
  urlIndex : Rat
  title : String
  year : Option String
  reference : String
deriving DecidableEq

/-- A validated citation as assembled by parseSearchResults. -/
structure Citation where
  title : String
  uri : String
  date : String
  reference : String
deriving DecidableEq

/-- The unit returned to the caller. -/
structure DialogueResult where
  sources : List Citation
deriving DecidableEq

/-- The object the schema-constrained extraction call parses to
(`analysis` string and the `sourceMatches` array). -/
structure ParsedExtract where
  analysis : String
  sourceMatches : List CitationDraft

/-- The `TRUSTED_DOMAINS` table. -/
def TRUSTED_DOMAINS : SourceType → List String
  | .legal =>
    [ "un.org", "ohchr.org", "unicef.org", "unesco.org", "who.int", "ilo.org",
      "treaties.un.org", "legal.un.org", "icj-cij.org",
      "echr.coe.int",
      "coe.int",
      "achpr.org",
      "african-court.org",
      "corteidh.or.cr",
      "oas.org",
      "iachr.org",
      "asean.org",
      "europarl.europa.eu",
      "europa.eu",
      "refworld.org",
      ".gov", ".gob", ".gc.ca", ".gov.uk", ".gov.au",
      "legislation.gov.uk",
      "legifrance.gouv.fr",
      "gesetze-im-internet.de",
      "constitution.org",
      "constituteproject.org" ]
  | .ngo =>
    [ "hrw.org", "amnesty.org", "icrc.org", "humanrightsfirst.org",
      "article19.org", "fidh.org", "civilliberties.org" ]
  | .academic =>
    [ "scholar.google.com",
      "researchgate.net",
      "academia.edu",
      "ssrn.com",
      "arxiv.org",
      ".edu",
      ".gov",
      "philpapers.org",
      "semanticscholar.org",
      "europepmc.org",
      "ncbi.nlm.nih.gov",
      "openaccess",
      "/pdf" ]

/-- Helper to check if URL is from trusted source. -/
def isTrustedSource (url : String) (type : SourceType) : Bool :=
  (TRUSTED_DOMAINS type).any (fun domain => jsIncludes (jsToLower url) (jsToLower domain))

/-- The allow patterns of isLikelyAccessible (`goodPatterns`). -/
def goodPatterns : List String :=
  [ "scholar.google.com",
    "researchgate.net",
    "academia.edu",
    "ssrn.com",
    "arxiv.org",
    ".edu",
    "/pdf",
    "openaccess",
    "philpapers.org",
    "semanticscholar.org",
    "europepmc.org",
    "ncbi.nlm.nih.gov/pmc" ]

/-- The block patterns of isLikelyAccessible (`badPatterns`). -/
def badPatterns : List String :=
  [ "jstor.org",
    "springer.com",
    "sciencedirect.com",
    "tandfonline.com",
    "wiley.com",
    "cambridge.org/core/journals",
    "oxfordjournals.org",
    "/abstract",
    "/citation" ]

/-- Verify URL is likely to be accessible.  Legal and NGO sources return
true immediately; academic URLs must match a good pattern and no bad one. -/
def isLikelyAccessible (url : String) (sourceType : SourceType) : Bool :=
  match sourceType with
  | .legal => true
  | .ngo => true
  | .academic =>
    let isGood := goodPatterns.any (fun pattern => jsIncludes (jsToLower url) pattern)
    let isBad := badPatterns.any (fun pattern => jsIncludes (jsToLower url) pattern)
    isGood && !isBad

/-- The candidate filter at the head of parseSearchResults: legal sources
are filtered by trust alone, academic/NGO by trust and accessibility. -/
def trustedUrlsOf (groundingUrls : List Candidate) (sourceType : SourceType) : List Candidate :=
  if sourceType = .legal then
    groundingUrls.filter (fun url => isTrustedSource url.uri sourceType)
  else
    groundingUrls.filter (fun url =>
      isTrustedSource url.uri sourceType && isLikelyAccessible url.uri sourceType)

/-- The per-draft validity test of parseSearchResults:
`Number.isInteger(index) && index >= 0 && index < trustedUrls.length`.
On a rational, integrality is den = 1, and for an integral value the
order tests are carried by the numerator. -/
def isValidUrlIndex (n : Nat) (index : Rat) : Bool :=
  index.den == 1 && decide (0 ≤ index.num) && decide (index.num < (n : Int))

/-- The natural-number index used to subscript `trustedUrls`. -/
def jsIndexNat (index : Rat) : Nat := index.num.toNat

/-- Mapping of an accepted draft to a citation: the uri is read from
`trustedUrls[match.urlIndex]` (the draft carries no uri of its own), the
date from `match.year || "N/A"`.  Only applied to in-range indices, where
the lookup is always `some`. -/
def citationOfDraft (trustedUrls : List Candidate) (m : CitationDraft) : Citation :=
  { title := m.title
    uri := ((trustedUrls[jsIndexNat m.urlIndex]?).map Candidate.uri).getD ""
    date := jsOrNA m.year
    reference := m.reference }

/-- The `.filter(...).map(...)` chain over `parsed.sourceMatches`:
drafts with an invalid urlIndex are dropped (logged, not thrown), the
rest are mapped to citations. -/
def validateSourceMatches (sourceMatches : List CitationDraft) (trustedUrls : List Candidate) :
    List Citation :=
  (sourceMatches.filter (fun m => isValidUrlIndex trustedUrls.length m.urlIndex)).map
    (citationOfDraft trustedUrls)

/-- Helper to parse search results.  `extractResp` is the outcome of the
schema-constrained model call together with JSON.parse (`.error` models a
thrown call or parse, handled by the catch that returns empty sources).
The second component counts model calls issued inside this helper: zero
when the trusted list is empty (the call is skipped), one otherwise. -/
def parseSearchResults (query searchContext : String) (groundingUrls : List Candidate)
    (sourceType : SourceType) (extractResp : Except Unit ParsedExtract) :
    DialogueResult × Nat :=
  let trustedUrls := trustedUrlsOf groundingUrls sourceType
  if trustedUrls.length = 0 then
    ({ sources := [] }, 0)
  else
    match extractResp with
    | .error _ => ({ sources := [] }, 1)
    | .ok parsed =>
      ({ sources := validateSourceMatches parsed.sourceMatches trustedUrls }, 1)

/-- The optional web payload of a grounding chunk. -/
structure WebInfo where
  title : Option String
  uri : Option String
deriving DecidableEq

/-- One raw grounding chunk (`c.web` may be absent). -/
structure GroundingChunk where
  web : Option WebInfo
deriving DecidableEq

/-- The title given to a candidate: `c.web?.title || "Source"`. -/
def chunkTitle (w : WebInfo) : String :=
  match w.title with
  | none => "Source"
  | some t => if t == "" then "Source" else t

/-- The grounding extraction shared by the three operations:
`groundingMetadata?.groundingChunks?.map(c => ({title: c.web?.title || "Source",
uri: c.web?.uri})).filter(c => c.uri) || []`.  A missing chunk list gives the
empty list; mapped entries whose uri is undefined or empty (falsy) are
dropped, which the map-then-filter chain renders as a filterMap. -/
def extractGroundingUrls : Option (List GroundingChunk) → List Candidate
  | none => []
  | some chunks =>
    chunks.filterMap (fun c =>
      match c.web with
      | none => none
      | some w =>
        match w.uri with
        | none => none
        | some u => if u == "" then none else some { title := chunkTitle w, uri := u })

/-- The search-augmented response of model call A: the raw text and the
optional grounding-chunk list reached through
`candidates?.[0]?.groundingMetadata?.groundingChunks`. -/
structure SearchResponse where
  text : String
  groundingChunks : Option (List GroundingChunk)

/-- getScopeAnalysis of the grounded variant: issue the search call, pull
the grounding urls, and delegate to parseSearchResults with the legal
policy; a thrown search call is caught and yields empty sources.  The
second component counts model calls (the search call plus whatever
parseSearchResults issued). -/
def getScopeAnalysis (rightName scope subScope : String)
    (searchResp : Except Unit SearchResponse) (extractResp : Except Unit ParsedExtract) :
    DialogueResult × Nat :=
  match searchResp with
  | .error _ => ({ sources := [] }, 1)
  | .ok response =>
    let groundingUrls := extractGroundingUrls response.groundingChunks
    let parsed := parseSearchResults
      (scope ++ " legal instruments for " ++ rightName ++
        (if subScope != "" then " in " ++ subScope else ""))
      response.text groundingUrls .legal extractResp
    (parsed.1, 1 + parsed.2)

/-- getStatusAnalysis of the grounded variant (ngo policy). -/
def getStatusAnalysis (rightName scope subScope : String)
    (searchResp : Except Unit SearchResponse) (extractResp : Except Unit ParsedExtract) :
    DialogueResult × Nat :=
  match searchResp with
  | .error _ => ({ sources := [] }, 1)
  | .ok response =>
    let groundingUrls := extractGroundingUrls response.groundingChunks
    let parsed := parseSearchResults ("status reports on " ++ rightName)
      response.text groundingUrls .ngo extractResp
    (parsed.1, 1 + parsed.2)

/-- getNexusAnalysis of the grounded variant (academic policy). -/
def getNexusAnalysis (fromRight toRight scope subScope : String)
    (searchResp : Except Unit SearchResponse) (extractResp : Except Unit ParsedExtract) :
    DialogueResult × Nat :=
  match searchResp with
  | .error _ => ({ sources := [] }, 1)
  | .ok response =>
    let groundingUrls := extractGroundingUrls response.groundingChunks
    let parsed := parseSearchResults ("nexus between " ++ fromRight ++ " and " ++ toRight)
      response.text groundingUrls .academic extractResp
    (parsed.1, 1 + parsed.2)

/-- Instruction text of the `international` branch. -/
def internationalInstructions (rightName : String) : String :=
  "Search for INTERNATIONAL legal instruments protecting \"" ++ rightName ++
  "\".\n      \n      Focus on:\n      - UN treaties and conventions (treaties.un.org, ohchr.org)\n      - International Covenant on Civil and Political Rights (ICCPR)\n      - International Covenant on Economic, Social and Cultural Rights (ICESCR)\n      - Universal Declaration of Human Rights (UDHR)\n      - Convention on the Rights of the Child (CRC)\n      - Convention on the Elimination of All Forms of Discrimination Against Women (CEDAW)\n      - Other UN human rights treaties\n      \n      Include full official names with adoption years and specific article numbers."

/-- Tail appended for a European sub-scope. -/
def regionalEuropeTail : String :=
  " in Europe.\n          \n          Focus on:\n          - European Convention on Human Rights (ECHR) - echr.coe.int\n          - EU Charter of Fundamental Rights - europa.eu\n          - Council of Europe conventions - coe.int\n          - European Court of Human Rights case law\n          \n          Include article numbers and case citations."

/-- Tail appended for an African sub-scope. -/
def regionalAfricaTail : String :=
  " in Africa.\n          \n          Focus on:\n          - African Charter on Human and Peoples\x27 Rights - achpr.org\n          - African Court decisions - african-court.org\n          - Protocol on the Rights of Women in Africa\n          - African Children\x27s Charter\n          \n          Include article numbers and relevant decisions."

/-- Tail appended for an Americas sub-scope. -/
def regionalAmericasTail : String :=
  " in the Americas.\n          \n          Focus on:\n          - American Convention on Human Rights - corteidh.or.cr\n          - Inter-American Court decisions - iachr.org\n          - American Declaration of the Rights and Duties of Man\n          - Additional Protocols\n          \n          Include article numbers and case law."

/-- Tail appended for an Asian sub-scope. -/
def regionalAsiaTail : String :=
  " in Asia.\n          \n          Focus on:\n          - ASEAN Human Rights Declaration - asean.org\n          - Regional mechanisms and frameworks\n          - Specialized conventions\n          \n          Include relevant provisions and mechanisms."

/-- Tail appended for a sub-scope naming no recognized region. -/
def regionalOtherTail : String :=
  ".\n          \n          Look for regional human rights systems including:\n          - European (ECHR, EU Charter)\n          - African (African Charter)\n          - Inter-American (American Convention)\n          - ASEAN (ASEAN Declaration)\n          \n          Include specific regional instruments and article numbers."

/-- Tail appended when no sub-scope is given. -/
def regionalNoSubScopeTail : String :=
  ".\n        \n        Search across all regional systems:\n        - European Convention on Human Rights (echr.coe.int)\n        - African Charter on Human and Peoples\x27 Rights (achpr.org)\n        - American Convention on Human Rights (corteidh.or.cr)\n        - ASEAN Human Rights Declaration (asean.org)\n        \n        Include article numbers and relevant provisions."

/-- Instruction text of the `national` branch with a named country. -/
def nationalInstructions (rightName subScope : String) : String :=
  "Search for NATIONAL laws and constitutional provisions protecting \"" ++ rightName ++
  "\" in " ++ subScope ++
  ".\n        \n        Focus on:\n        - National constitution (constituteproject.org, constitution.org)\n        - Domestic legislation (.gov, .gob, legislation sites)\n        - Bill of Rights or equivalent\n        - Specific statutes and laws\n        - Supreme Court or Constitutional Court decisions\n        \n        Use official government sources (.gov, .gob, .gc.ca, .gov.uk, etc.)\n        Include constitutional article numbers and statute names with years."

/-- Instruction text of the `national` branch without a country. -/
def nationalGenericInstructions (rightName : String) : String :=
  "Search for examples of NATIONAL laws protecting \"" ++ rightName ++
  "\" across different countries.\n        \n        Focus on:\n        - Constitutional provisions (constituteproject.org)\n        - National legislation from various countries\n        - Comparative constitutional law\n        - Model national laws\n        \n        Include specific country examples with constitutional articles and statute names."

/-- Instruction text of the default branch. -/
def defaultInstructions (scope subScope rightName : String) : String :=
  "Search for legal instruments protecting \"" ++ rightName ++ "\" at " ++ scope ++
  " level " ++ (if subScope != "" then "in " ++ subScope else "") ++
  ".\n      \n      Include full official names, years, and specific article numbers or provisions."

/-- Helper to build scope-specific search instructions (the QueryComposer of
the legal-framework operation): a switch on `scope.toLowerCase()`; the
regional case starts from a common base sentence and, when a sub-scope is
given, further branches on which region name it contains, else appends the
generic all-regions tail. -/
def getScopeSearchInstructions (scope subScope rightName : String) : String :=
  let s := jsToLower scope
  if s == "international" then
    internationalInstructions rightName
  else if s == "regional" then
    let base := "Search for REGIONAL legal instruments protecting \"" ++ rightName ++ "\""
    if subScope != "" then
      let region := jsToLower subScope
      if jsIncludes region "europe" || jsIncludes region "european" then
        base ++ regionalEuropeTail
      else if jsIncludes region "africa" || jsIncludes region "african" then
        base ++ regionalAfricaTail
      else if jsIncludes region "america" || jsIncludes region "inter-american" then
        base ++ regionalAmericasTail
      else if jsIncludes region "asia" || jsIncludes region "asean" then
        base ++ regionalAsiaTail
      else
        base ++ regionalOtherTail
    else
      base ++ regionalNoSubScopeTail
  else if s == "national" then
    if subScope != "" then
      nationalInstructions rightName subScope
    else
      nationalGenericInstructions rightName
  else
    defaultInstructions scope subScope rightName

end Grounded

/-- A catalog entry as sent to the semantic-match prompt (id, name, summary). -/
structure HumanRight where
  id : String
  name : String
  summary : String
deriving DecidableEq

/-- A parsed JSON value, the possible outcome of JSON.parse on a model
response (object fields keep document order, as Object.keys does). -/
inductive Json where
  | null
  | bool (b : Bool)
  | num (q : Rat)
  | str (s : String)
  | arr (elems : List Json)
  | obj (fields : List (String × Json))

/-- Whether a JSON value is an array (JS Array.isArray). -/
def Json.isArr : Json → Bool
  | .arr _ => true
  | _ => false

/-- JS falsiness of a parsed JSON value (the `if (!parsed)` guard):
null, false, 0 and the empty string are falsy. -/
def jsonFalsy : Json → Bool
  | .null => true
  | .bool b => !b
  | .num q => q == 0
  | .str s => s == ""
  | .arr _ => false
  | .obj _ => false

/-- The value of the first array-valued field of an object, scanning keys
in order (the fallback loop of getSemanticRights). -/
def firstArrayField : List (String × Json) → Option (List Json)
  | [] => none
  | (_, .arr elems) :: _ => some elems
  | _ :: rest => firstArrayField rest

namespace Basic

/-- A source of the basic response schema: title, uri, reference (all
model-written; there is no index indirection in this variant). -/
structure Source where
  title : String
  uri : String
  reference : String
deriving DecidableEq

/-- The unit returned to the caller by the basic variant. -/
structure DialogueResult where
  sources : List Source
deriving DecidableEq

/-- Helper to parse search results of the basic variant: the parsed model
JSON is returned unchanged (its uris are model text); a thrown call or
parse yields empty sources.  The basic operations below inline this same
logic rather than calling it. -/
def parseSearchResults (query searchContext : String)
    (parseResp : Except Unit DialogueResult) : DialogueResult :=
  match parseResp with
  | .error _ => { sources := [] }
  | .ok parsed => parsed

/-- Hex digit (uppercase) used by percent encoding. -/
def hexDigit (n : Nat) : Char :=
  if n < 10 then Char.ofNat (48 + n) else Char.ofNat (55 + n)

/-- Percent-encoding of one byte. -/
def percentByte (b : UInt8) : List Char :=
  ['%', hexDigit (b.toNat / 16), hexDigit (b.toNat % 16)]

/-- Characters encodeURIComponent leaves unescaped. -/
def uriUnreserved (c : Char) : Bool :=
  c.isAlphanum || (['-', '_', '.', '!', '~', '*', '\x27', '(', ')'] : List Char).contains c

/-- JS encodeURIComponent: unreserved characters kept, all others replaced
by the percent-encoded bytes of their UTF-8 encoding. -/
def encodeURIComponent (s : String) : String :=
  ⟨(s.data.map (fun c =>
      if uriUnreserved c then [c]
      else ((String.utf8EncodeChar c).map percentByte).flatten)).flatten⟩

/-- The degraded result of getScopeAnalysis on any caught failure. -/
def legalFallback : DialogueResult :=
  { sources := [
      { title := "Legal framework information temporarily unavailable"
        uri := "https://www.ohchr.org/en/instruments-listings"
        reference := "Unable to retrieve legal framework information at this time. Visit the UN Office of the High Commissioner for Human Rights for official treaty texts." }] }

/-- The degraded result of getStatusAnalysis on any caught failure. -/
def statusFallback (rightName : String) : DialogueResult :=
  { sources := [
      { title := "Current status information temporarily unavailable"
        uri := "https://www.hrw.org/world-report/2024"
        reference := "Unable to retrieve current status information for " ++ rightName ++ ". Check Human Rights Watch, Amnesty International, or UN Human Rights reports for recent updates." }] }

/-- The degraded result of getNexusAnalysis on any caught failure. -/
def nexusFallback (fromRight toRight : String) : DialogueResult :=
  { sources := [
      { title := "Academic research temporarily unavailable"
        uri := "https://scholar.google.com/scholar?q=" ++
          encodeURIComponent ("\"" ++ fromRight ++ "\" AND \"" ++ toRight ++ "\" human rights")
        reference := "Search Google Scholar manually for peer-reviewed papers analyzing both " ++ fromRight ++ " and " ++ toRight ++ ". Use quotation marks around each term for precise results." }] }

/-- getScopeAnalysis of the basic variant: two sequential model calls in a
try block; any thrown call or JSON.parse failure lands in the catch, which
returns the fixed single-placeholder fallback.  `searchResp` is the text
of call A, `parseResp` the parsed JSON of call B. -/
def getScopeAnalysis (rightName scope subScope : String)
    (searchResp : Except Unit String) (parseResp : Except Unit DialogueResult) :
    DialogueResult :=
  match searchResp with
  | .error _ => legalFallback
  | .ok _text =>
    match parseResp with
    | .error _ => legalFallback
    | .ok parsed => parsed

/-- getStatusAnalysis of the basic variant (same shape, status fallback). -/
def getStatusAnalysis (rightName scope subScope : String)
    (searchResp : Except Unit String) (parseResp : Except Unit DialogueResult) :
    DialogueResult :=
  match searchResp with
  | .error _ => statusFallback rightName
  | .ok _text =>
    match parseResp with
    | .error _ => statusFallback rightName
    | .ok parsed => parsed

/-- getNexusAnalysis of the basic variant (same shape, nexus fallback). -/
def getNexusAnalysis (fromRight toRight scope subScope : String)
    (searchResp : Except Unit String) (parseResp : Except Unit DialogueResult) :
    DialogueResult :=
  match searchResp with
  | .error _ => nexusFallback fromRight toRight
  | .ok _text =>
    match parseResp with
    | .error _ => nexusFallback fromRight toRight
    | .ok parsed => parsed

/-- The coercion getSemanticRights applies to the parsed model JSON:
falsy values give the empty list, a bare array is returned as-is, an
object yields its first array-valued field (or the empty list), every
other shape the empty list. -/
def coerceSemantic (parsed : Json) : List Json :=
  if jsonFalsy parsed then []
  else
    match parsed with
    | .arr elems => elems
    | .obj fields => (firstArrayField fields).getD []
    | _ => []

/-- getSemanticRights of the basic variant.  `modelResp` is `.error` when
the model call throws, `.ok none` when JSON.parse throws (the inner
catch), `.ok (some v)` when it parses to `v`. -/
def getSemanticRights (term : String) (rights : List HumanRight)
    (modelResp : Except Unit (Option Json)) : List Json :=
  match modelResp with
  | .error _ => []
  | .ok none => []
  | .ok (some parsed) => coerceSemantic parsed

end Basic

/-- getSemanticRights of the grounded-variant listing: the parsed JSON is
returned unchanged whatever its shape; a thrown call or parse yields the
empty array. -/
def Grounded.getSemanticRights (term : String) (rights : List HumanRight)
    (modelResp : Except Unit Json) : Json :=
  match modelResp with
  | .error _ => .arr []
  | .ok parsed => parsed

end HRIndex

namespace HRIndex

open Grounded

/-- Substring containment is preserved by prepending. -/
theorem containsSub_append_right (pat b : List Char) (h : containsSub pat b = true) :
    ∀ a : List Char, containsSub pat (a ++ b) = true := by
  intro a
  induction a with
  | nil => simpa using h
  | cons x t ih => simp [containsSub, ih]

/-- JS includes is preserved by prepending a string. -/
theorem jsIncludes_append_right (a b pat : String) (h : jsIncludes b pat = true) :
    jsIncludes (a ++ b) pat = true := by
  have hdata : (a ++ b).data = a.data ++ b.data := by
    cases a; cases b; rfl
  unfold jsIncludes at h ⊢
  rw [hdata]
  exact containsSub_append_right _ _ h _

/-- An accepted urlIndex subscripts inside the trusted list. -/
theorem isValidUrlIndex_lt (n : Nat) (q : Rat) (h : isValidUrlIndex n q = true) :
    jsIndexNat q < n := by
  unfold isValidUrlIndex at h
  simp only [Bool.and_eq_true, beq_iff_eq, decide_eq_true_eq] at h
  unfold jsIndexNat
  omega

/-- The uri of a citation built from an accepted draft is read off the
trusted list at the draft's index. -/
theorem citationOfDraft_uri_eq (trustedUrls : List Candidate) (m : CitationDraft)
    (h : jsIndexNat m.urlIndex < trustedUrls.length) :
    (citationOfDraft trustedUrls m).uri = (trustedUrls[jsIndexNat m.urlIndex]).uri := by
  simp [citationOfDraft, List.getElem?_eq_getElem h]

/-- The uri of a citation built from an accepted draft belongs to the
trusted uris. -/
theorem citationOfDraft_uri_mem (trustedUrls : List Candidate) (m : CitationDraft)
    (h : isValidUrlIndex trustedUrls.length m.urlIndex = true) :
    (citationOfDraft trustedUrls m).uri ∈ trustedUrls.map Candidate.uri := by
  have hlt := isValidUrlIndex_lt _ _ h
  rw [citationOfDraft_uri_eq _ _ hlt]
  exact List.mem_map_of_mem Candidate.uri (trustedUrls.getElem_mem hlt)

/-- C1.  Every citation of a validated result takes its uri from the
trusted candidate list: whatever the stubbed model answered, each member
of `parseSearchResults ... sources` has a uri occurring among the uris of
`trustedUrlsOf groundingUrls sourceType` (the drafts of the grounded
schema carry no uri field at all, so no model-emitted URL text can reach
the citation). -/
theorem c1_citation_uri_from_trusted (query searchContext : String)
    (groundingUrls : List Candidate) (sourceType : SourceType)
    (extractResp : Except Unit ParsedExtract) (c : Citation)
    (hc : c ∈ (parseSearchResults query searchContext groundingUrls sourceType extractResp).1.sources) :
    c.uri ∈ (trustedUrlsOf groundingUrls sourceType).map Candidate.uri := by
  unfold parseSearchResults at hc
  by_cases h : (trustedUrlsOf groundingUrls sourceType).length = 0
  · simp [h] at hc
  · rcases extractResp with e | parsed
    · simp [h] at hc
    · simp only [h, if_neg h] at hc
      have hc' : ∃ m, (m ∈ parsed.sourceMatches ∧
          isValidUrlIndex (trustedUrlsOf groundingUrls sourceType).length m.urlIndex = true) ∧
          citationOfDraft (trustedUrlsOf groundingUrls sourceType) m = c := by
        simpa [validateSourceMatches] using hc
      rcases hc' with ⟨m, ⟨hm, hv⟩, rfl⟩
      exact citationOfDraft_uri_mem _ _ hv

/-- Witness for C1 at a concrete input: one trusted grounding url and one
draft referencing index 0. -/
theorem c1_witness :
    (⟨"T", "https://www.un.org/a", "N/A", "R"⟩ : Citation) ∈
      (parseSearchResults "q" "ctx" [⟨"UN", "https://www.un.org/a"⟩] .legal
        (.ok ⟨"analysis", [⟨0, "T", none, "R"⟩]⟩)).1.sources
    ∧ (⟨"T", "https://www.un.org/a", "N/A", "R"⟩ : Citation).uri ∈
      (trustedUrlsOf [⟨"UN", "https://www.un.org/a"⟩] .legal).map Candidate.uri :=
  ⟨by decide,
   c1_citation_uri_from_trusted "q" "ctx" [⟨"UN", "https://www.un.org/a"⟩] .legal
     (.ok ⟨"analysis", [⟨0, "T", none, "R"⟩]⟩) _ (by decide)⟩

/-- C2.  The validator keeps exactly the drafts with a valid urlIndex:
the result counts the valid drafts, every valid draft contributes its
citation, and every returned citation comes from some valid draft; it is
a total function, so no draft aborts the batch. -/
theorem c2_validator_exact (sourceMatches : List CitationDraft) (trustedUrls : List Candidate) :
    (validateSourceMatches sourceMatches trustedUrls).length
        = sourceMatches.countP (fun m => isValidUrlIndex trustedUrls.length m.urlIndex)
    ∧ (∀ m ∈ sourceMatches, isValidUrlIndex trustedUrls.length m.urlIndex = true →
        citationOfDraft trustedUrls m ∈ validateSourceMatches sourceMatches trustedUrls)
    ∧ (∀ c ∈ validateSourceMatches sourceMatches trustedUrls,
        ∃ m ∈ sourceMatches, isValidUrlIndex trustedUrls.length m.urlIndex = true ∧
          c = citationOfDraft trustedUrls m) := by
  refine ⟨?_, ?_, ?_⟩
  · simp [validateSourceMatches, List.countP_eq_length_filter]
  · intro m hm hv
    exact List.mem_map_of_mem _ (List.mem_filter.mpr ⟨hm, hv⟩)
  · intro c hc
    rcases List.mem_map.mp hc with ⟨m, hm, rfl⟩
    rcases List.mem_filter.mp hm with ⟨hmem, hv⟩
    exact ⟨m, hmem, hv, rfl⟩

/-- Witness for C2: against a 2-element trusted list, a batch holding one
draft with urlIndex 0 and one with urlIndex 5 yields exactly the first
draft's citation — one entry smaller, no abort. -/
theorem c2_witness :
    (validateSourceMatches
        [⟨0, "ICCPR (1966)", some "1966", "ref"⟩, ⟨5, "Bogus", none, "bad"⟩]
        [⟨"A", "https://www.ohchr.org/x"⟩, ⟨"B", "https://legal.un.org/y"⟩]).length = 1
    ∧ citationOfDraft [⟨"A", "https://www.ohchr.org/x"⟩, ⟨"B", "https://legal.un.org/y"⟩]
        ⟨0, "ICCPR (1966)", some "1966", "ref"⟩ ∈
        validateSourceMatches
          [⟨0, "ICCPR (1966)", some "1966", "ref"⟩, ⟨5, "Bogus", none, "bad"⟩]
          [⟨"A", "https://www.ohchr.org/x"⟩, ⟨"B", "https://legal.un.org/y"⟩] :=
  ⟨by decide,
   (c2_validator_exact
        [⟨0, "ICCPR (1966)", some "1966", "ref"⟩, ⟨5, "Bogus", none, "bad"⟩]
        [⟨"A", "https://www.ohchr.org/x"⟩, ⟨"B", "https://legal.un.org/y"⟩]).2.1
     ⟨0, "ICCPR (1966)", some "1966", "ref"⟩ (by decide) (by decide)⟩

/-- C3.  Empty-candidate short-circuit: when filtering leaves no trusted
candidate, parseSearchResults issues no model call and returns empty
sources, and getScopeAnalysis as a whole issues exactly the one search
call and returns the empty source list. -/
theorem c3_empty_trusted_short_circuit :
    (∀ (query searchContext : String) (groundingUrls : List Candidate)
        (sourceType : SourceType) (extractResp : Except Unit ParsedExtract),
      trustedUrlsOf groundingUrls sourceType = [] →
      parseSearchResults query searchContext groundingUrls sourceType extractResp
        = ({ sources := [] }, 0))
    ∧ (∀ (rightName scope subScope : String) (response : SearchResponse)
        (extractResp : Except Unit ParsedExtract),
      trustedUrlsOf (extractGroundingUrls response.groundingChunks) .legal = [] →
      getScopeAnalysis rightName scope subScope (.ok response) extractResp
        = ({ sources := [] }, 1)) := by
  constructor
  · intro query searchContext groundingUrls sourceType extractResp h
    unfold parseSearchResults
    simp [h]
  · intro rightName scope subScope response extractResp h
    unfold getScopeAnalysis
    simp only []
    rw [show parseSearchResults
        (scope ++ " legal instruments for " ++ rightName ++
          (if subScope != "" then " in " ++ subScope else ""))
        response.text (extractGroundingUrls response.groundingChunks) .legal extractResp
      = ({ sources := [] }, 0) from by
        unfold parseSearchResults; simp [h]]
    rfl

/-- Witness for C3: a search response whose only grounding chunk is an
untrusted blog; even though the stubbed extraction response would parse,
only the search call (count 1) happens and the result is empty. -/
theorem c3_witness :
    getScopeAnalysis "Education" "International" ""
      (.ok ⟨"text", some [⟨some ⟨some "Blog", some "https://example-blog.com/y"⟩⟩]⟩)
      (.ok ⟨"analysis", [⟨0, "T", none, "R"⟩]⟩)
      = ({ sources := [] }, 1) :=
  c3_empty_trusted_short_circuit.2 "Education" "International" ""
    ⟨"text", some [⟨some ⟨some "Blog", some "https://example-blog.com/y"⟩⟩]⟩
    (.ok ⟨"analysis", [⟨0, "T", none, "R"⟩]⟩) (by decide)

/-- C4 counterexample.  The validator performs no deduplication: two
drafts carrying the same urlIndex 0 against a singleton trusted list
yield two citations with the same uri, so a result can contain two
citations sharing a uri. -/
theorem c4_counterexample :
    ((validateSourceMatches
        [⟨0, "First", none, "r1"⟩, ⟨0, "Second", none, "r2"⟩]
        [⟨"UN", "https://www.un.org/a"⟩]).map Citation.uri)
      = ["https://www.un.org/a", "https://www.un.org/a"]
    ∧ ¬ ((validateSourceMatches
        [⟨0, "First", none, "r1"⟩, ⟨0, "Second", none, "r2"⟩]
        [⟨"UN", "https://www.un.org/a"⟩]).map Citation.uri).Nodup :=
  ⟨by decide, by decide⟩

/-- C4 as amended.  Validation is filter-then-map with no dedup pass, so
uris are pairwise distinct exactly under the side conditions the code
leaves to chance: if the trusted uris are pairwise distinct and the
accepted drafts reference pairwise-distinct indices, then no two returned
citations share a uri. -/
theorem c4_amended_nodup (sourceMatches : List CitationDraft) (trustedUrls : List Candidate)
    (h1 : (trustedUrls.map Candidate.uri).Nodup)
    (h2 : ((sourceMatches.filter (fun m => isValidUrlIndex trustedUrls.length m.urlIndex)).map
        (fun m => jsIndexNat m.urlIndex)).Nodup) :
    ((validateSourceMatches sourceMatches trustedUrls).map Citation.uri).Nodup := by
  unfold validateSourceMatches
  rw [List.map_map]
  have hvalid : ∀ m ∈ sourceMatches.filter
      (fun m => isValidUrlIndex trustedUrls.length m.urlIndex),
      jsIndexNat m.urlIndex < trustedUrls.length := by
    intro m hm
    exact isValidUrlIndex_lt _ _ (List.mem_filter.mp hm).2
  have hcomp : (sourceMatches.filter
        (fun m => isValidUrlIndex trustedUrls.length m.urlIndex)).map
        (Citation.uri ∘ citationOfDraft trustedUrls)
      = ((sourceMatches.filter
          (fun m => isValidUrlIndex trustedUrls.length m.urlIndex)).map
          (fun m => jsIndexNat m.urlIndex)).map
          (fun i => ((trustedUrls[i]?).map Candidate.uri).getD "") := by
    rw [List.map_map]
    rfl
  rw [hcomp]
  refine List.Nodup.map_on ?_ h2
  intro i hi j hj hgij
  rcases List.mem_map.mp hi with ⟨mi, hmi, rfl⟩
  rcases List.mem_map.mp hj with ⟨mj, hmj, rfl⟩
  have hi' : jsIndexNat mi.urlIndex < trustedUrls.length := hvalid mi hmi
  have hj' : jsIndexNat mj.urlIndex < trustedUrls.length := hvalid mj hmj
  have hi'' : jsIndexNat mi.urlIndex < (trustedUrls.map Candidate.uri).length := by
    simpa using hi'
  have hj'' : jsIndexNat mj.urlIndex < (trustedUrls.map Candidate.uri).length := by
    simpa using hj'
  have hgij' : (trustedUrls[jsIndexNat mi.urlIndex]).uri
      = (trustedUrls[jsIndexNat mj.urlIndex]).uri := by
    simpa [List.getElem?_eq_getElem hi', List.getElem?_eq_getElem hj'] using hgij
  have key : (trustedUrls.map Candidate.uri)[jsIndexNat mi.urlIndex]
      = (trustedUrls.map Candidate.uri)[jsIndexNat mj.urlIndex] := by
    rw [List.getElem_map, List.getElem_map]
    exact hgij'
  exact h1.getElem_inj_iff.mp key

/-- Witness for the amended C4: distinct accepted indices against a
trusted list with distinct uris give pairwise-distinct citation uris. -/
theorem c4_witness :
    ((validateSourceMatches [⟨0, "A", none, "ra"⟩, ⟨1, "B", none, "rb"⟩]
        [⟨"X", "https://www.un.org/x"⟩, ⟨"Y", "https://www.ohchr.org/y"⟩]).map
        Citation.uri).Nodup :=
  c4_amended_nodup _ _ (by decide) (by decide)

/-- C5 counterexample.  In the grounded variant of the service — whose
catch blocks the claim also covers — a failing search-augmented call
yields an empty source list, not a single placeholder citation. -/
theorem c5_counterexample :
    (getScopeAnalysis "Privacy" "International" "" (.error ()) (.error ())).1.sources = []
    ∧ (getScopeAnalysis "Privacy" "International" "" (.error ()) (.error ())).1.sources.length ≠ 1 :=
  ⟨rfl, by decide⟩

/-- A failed (thrown or unparseable) extraction call leaves the sources
empty, whether or not the trusted list was empty. -/
theorem parseSearchResults_error_sources (query searchContext : String)
    (groundingUrls : List Candidate) (sourceType : SourceType) :
    (parseSearchResults query searchContext groundingUrls sourceType (.error ())).1
      = { sources := [] } := by
  unfold parseSearchResults
  by_cases h : (trustedUrlsOf groundingUrls sourceType).length = 0
  · simp [h]
  · simp [h]

/-- C5 as amended.  No operation lets the failure escape (the embeddings
are total).  In the src/services/gemini.ts variant each of the three
retrieval operations maps any caught failure — thrown call A or failed
parse of call B — to its fixed single-placeholder result whose uri is a
manual fallback portal.  In the grounded variant the same two failure
kinds leave every one of the three operations with the empty source
list, and a failing search call in particular yields exactly
({ sources := [] }, 1): the one issued call and zero citations. -/
theorem c5_amended_fallbacks :
    ∀ (rightName scope subScope fromRight toRight : String)
      (searchResp : Except Unit String) (parseResp : Except Unit Basic.DialogueResult),
      searchResp = .error () ∨ parseResp = .error () →
      (Basic.getScopeAnalysis rightName scope subScope searchResp parseResp = Basic.legalFallback
        ∧ Basic.getStatusAnalysis rightName scope subScope searchResp parseResp
            = Basic.statusFallback rightName
        ∧ Basic.getNexusAnalysis fromRight toRight scope subScope searchResp parseResp
            = Basic.nexusFallback fromRight toRight)
      ∧ (Basic.legalFallback.sources.length = 1
        ∧ (Basic.statusFallback rightName).sources.length = 1
        ∧ (Basic.nexusFallback fromRight toRight).sources.length = 1)
      ∧ (∀ (gsearch : Except Unit SearchResponse) (gextract : Except Unit ParsedExtract),
          gsearch = .error () ∨ gextract = .error () →
          (getScopeAnalysis rightName scope subScope gsearch gextract).1 = { sources := [] }
          ∧ (getStatusAnalysis rightName scope subScope gsearch gextract).1 = { sources := [] }
          ∧ (getNexusAnalysis fromRight toRight scope subScope gsearch gextract).1
              = { sources := [] })
      ∧ (∀ gextract : Except Unit ParsedExtract,
          getScopeAnalysis rightName scope subScope (.error ()) gextract = ({ sources := [] }, 1)
          ∧ getStatusAnalysis rightName scope subScope (.error ()) gextract = ({ sources := [] }, 1)
          ∧ getNexusAnalysis fromRight toRight scope subScope (.error ()) gextract
              = ({ sources := [] }, 1)) := by
  intro rightName scope subScope fromRight toRight a b h
  refine ⟨?_, ⟨rfl, rfl, rfl⟩, ?_, fun gextract => ⟨rfl, rfl, rfl⟩⟩
  · rcases h with rfl | rfl
    · exact ⟨rfl, rfl, rfl⟩
    · cases a <;> exact ⟨rfl, rfl, rfl⟩
  · rintro gsearch gextract (rfl | rfl)
    · exact ⟨rfl, rfl, rfl⟩
    · cases gsearch with
      | error e => exact ⟨rfl, rfl, rfl⟩
      | ok response =>
        exact ⟨parseSearchResults_error_sources _ _ _ _,
          parseSearchResults_error_sources _ _ _ _,
          parseSearchResults_error_sources _ _ _ _⟩

/-- Witness for the amended C5 at concrete inputs: a thrown call A in the
basic variant gives the one-placeholder fallback, and a ParseFailure in
the grounded status operation gives the empty source list. -/
theorem c5_witness :
    Basic.getScopeAnalysis "Privacy" "International" "" (.error ()) (.ok { sources := [] })
      = Basic.legalFallback
    ∧ (Basic.nexusFallback "Privacy" "Education").sources.length = 1
    ∧ (getStatusAnalysis "Privacy" "International" "" (.ok ⟨"text", none⟩) (.error ())).1
      = { sources := [] } := by
  have h := c5_amended_fallbacks "Privacy" "International" "" "Privacy" "Education"
    (.error ()) (.ok { sources := [] }) (Or.inl rfl)
  exact ⟨h.1.1, h.2.1.2.2, (h.2.2.1 (.ok ⟨"text", none⟩) (.error ()) (Or.inr rfl)).2.1⟩

/-- C6 counterexample.  The grounding extraction performs no
deduplication: two chunks carrying the same uri yield two candidates with
that uri. -/
theorem c6_counterexample :
    ((extractGroundingUrls (some [⟨some ⟨some "T", some "https://www.un.org/a"⟩⟩,
        ⟨some ⟨some "T", some "https://www.un.org/a"⟩⟩])).map Candidate.uri)
      = ["https://www.un.org/a", "https://www.un.org/a"]
    ∧ ¬ ((extractGroundingUrls (some [⟨some ⟨some "T", some "https://www.un.org/a"⟩⟩,
        ⟨some ⟨some "T", some "https://www.un.org/a"⟩⟩])).map Candidate.uri).Nodup :=
  ⟨by decide, by decide⟩

/-- C6 as amended.  Extraction returns the empty list when the chunk list
is absent or empty, replaces a missing or empty title with "Source", and
keeps exactly the chunks with a present, non-empty url (in order, one
candidate per such chunk) — but does not deduplicate by uri. -/
theorem c6_amended_extraction :
    (extractGroundingUrls none = [] ∧ extractGroundingUrls (some []) = [])
    ∧ (∀ (t u : Option String), (t = none ∨ t = some "") →
        chunkTitle ⟨t, u⟩ = "Source")
    ∧ (∀ (chunks : List GroundingChunk) (cand : Candidate),
        cand ∈ extractGroundingUrls (some chunks) ↔
          ∃ c ∈ chunks, ∃ w, c.web = some w ∧ w.uri = some cand.uri ∧
            cand.uri ≠ "" ∧ cand.title = chunkTitle w) := by
  refine ⟨⟨rfl, rfl⟩, ?_, ?_⟩
  · rintro t u (rfl | rfl) <;> rfl
  · intro chunks cand
    obtain ⟨ctitle, curi⟩ := cand
    unfold extractGroundingUrls
    rw [List.mem_filterMap]
    constructor
    · rintro ⟨c, hc, hf⟩
      rcases hw : c.web with _ | w
      · simp only [hw] at hf
        exact Option.noConfusion hf
      · simp only [hw] at hf
        rcases hu : w.uri with _ | u
        · simp only [hu] at hf
          exact Option.noConfusion hf
        · simp only [hu] at hf
          by_cases hue : u = ""
          · simp [hue] at hf
          · simp only [beq_iff_eq, if_neg hue, Option.some_inj, Candidate.mk.injEq] at hf
            obtain ⟨h1, h2⟩ := hf
            subst h2
            exact ⟨c, hc, w, hw, hu, hue, h1.symm⟩
    · rintro ⟨c, hc, w, hw, hu, hne, ht⟩
      refine ⟨c, hc, ?_⟩
      simp only [hw, hu]
      rw [if_neg (by simpa using hne)]
      simp only [Option.some_inj, Candidate.mk.injEq]
      exact ⟨ht.symm, trivial⟩

/-- Witness for the amended C6: a chunk with an empty title and a chunk
with no web payload; exactly the first survives, with the placeholder
title. -/
theorem c6_witness :
    (⟨"Source", "https://www.ohchr.org/r"⟩ : Candidate) ∈
      extractGroundingUrls (some [⟨some ⟨some "", some "https://www.ohchr.org/r"⟩⟩, ⟨none⟩]) :=
  (c6_amended_extraction.2.2 [⟨some ⟨some "", some "https://www.ohchr.org/r"⟩⟩, ⟨none⟩]
      ⟨"Source", "https://www.ohchr.org/r"⟩).mpr
    ⟨⟨some ⟨some "", some "https://www.ohchr.org/r"⟩⟩, by decide,
      ⟨some "", some "https://www.ohchr.org/r"⟩, rfl, rfl, by decide, by decide⟩

/-- Accessibility of an academic url is the conjunction of an allow
pattern matching and no block pattern matching. -/
theorem isLikelyAccessible_academic_iff (url : String) :
    isLikelyAccessible url .academic = true ↔
      (∃ p ∈ goodPatterns, jsIncludes (jsToLower url) p = true) ∧
      (∀ p ∈ badPatterns, jsIncludes (jsToLower url) p = false) := by
  unfold isLikelyAccessible
  simp only [Bool.and_eq_true, Bool.not_eq_true', List.any_eq_true, List.any_eq_false,
    Bool.not_eq_true]

/-- C7.  The accessibility check is skipped (constantly true) for legal
and ngo urls; an academic candidate passes the filter exactly when it is
trusted, some allow pattern matches its uri, and no block pattern does;
legal and ngo candidates are filtered on trust alone. -/
theorem c7_accessibility_filter :
    (∀ url : String,
        isLikelyAccessible url .legal = true ∧ isLikelyAccessible url .ngo = true)
    ∧ (∀ (groundingUrls : List Candidate) (u : Candidate),
        u ∈ trustedUrlsOf groundingUrls .academic ↔
          u ∈ groundingUrls ∧ isTrustedSource u.uri .academic = true ∧
            (∃ p ∈ goodPatterns, jsIncludes (jsToLower u.uri) p = true) ∧
            (∀ p ∈ badPatterns, jsIncludes (jsToLower u.uri) p = false))
    ∧ (∀ (groundingUrls : List Candidate) (u : Candidate),
        (u ∈ trustedUrlsOf groundingUrls .legal ↔
          u ∈ groundingUrls ∧ isTrustedSource u.uri .legal = true)
        ∧ (u ∈ trustedUrlsOf groundingUrls .ngo ↔
          u ∈ groundingUrls ∧ isTrustedSource u.uri .ngo = true)) := by
  refine ⟨fun url => ⟨rfl, rfl⟩, ?_, ?_⟩
  · intro groundingUrls u
    unfold trustedUrlsOf
    rw [if_neg (by decide), List.mem_filter, Bool.and_eq_true,
      isLikelyAccessible_academic_iff]
  · intro groundingUrls u
    constructor
    · unfold trustedUrlsOf
      rw [if_pos rfl, List.mem_filter]
    · unfold trustedUrlsOf
      rw [if_neg (by decide), List.mem_filter]
      simp [isLikelyAccessible]

/-- Witness for C7, the spec's own scenario: a uri on an academic trust
domain (.edu) that also matches the block pattern /abstract is excluded
from the trusted candidates. -/
theorem c7_witness :
    (⟨"Paper", "https://someuniversity.edu/paper/abstract"⟩ : Candidate) ∉
      trustedUrlsOf [⟨"Paper", "https://someuniversity.edu/paper/abstract"⟩] .academic := by
  intro hmem
  have h := (c7_accessibility_filter.2.1
      [⟨"Paper", "https://someuniversity.edu/paper/abstract"⟩]
      ⟨"Paper", "https://someuniversity.edu/paper/abstract"⟩).mp hmem
  have hbad := h.2.2.2 "/abstract" (by decide)
  rw [show jsIncludes (jsToLower "https://someuniversity.edu/paper/abstract") "/abstract" = true
    from by decide] at hbad
  exact Bool.noConfusion hbad

/-- firstArrayField agrees with find? on the is-array predicate. -/
theorem firstArrayField_find? (fields : List (String × Json)) :
    (∀ key elems, fields.find? (fun f => f.2.isArr) = some (key, .arr elems) →
      firstArrayField fields = some elems)
    ∧ (fields.find? (fun f => f.2.isArr) = none → firstArrayField fields = none) := by
  induction fields with
  | nil =>
    exact ⟨fun key elems h => Option.noConfusion h, fun _ => rfl⟩
  | cons hd tl ih =>
    obtain ⟨k0, v0⟩ := hd
    cases v0
    case arr elems0 =>
      refine ⟨?_, ?_⟩
      · intro key elems h
        rw [List.find?_cons_of_pos _ (by simp [Json.isArr])] at h
        injection h with h'
        have h2 := congrArg Prod.snd h'
        injection h2 with h3
        exact congrArg some h3
      · intro h
        rw [List.find?_cons_of_pos _ (by simp [Json.isArr])] at h
        exact Option.noConfusion h
    all_goals
      refine ⟨?_, ?_⟩
      · intro key elems h
        rw [List.find?_cons_of_neg _ (by simp [Json.isArr])] at h
        exact ih.1 key elems h
      · intro h
        rw [List.find?_cons_of_neg _ (by simp [Json.isArr])] at h
        exact ih.2 h

/-- C8 counterexample.  The getSemanticRights of the grounded-variant
listing applies no coercion: the nested object is returned as an object,
not as the array of ids the claim requires. -/
theorem c8_counterexample :
    Grounded.getSemanticRights "education funding" []
        (.ok (.obj [("ids", .arr [.str "3", .str "7"])]))
      ≠ Json.arr [.str "3", .str "7"] :=
  fun h => Json.noConfusion h

/-- C8 as amended.  The getSemanticRights of src/services/gemini.ts
coerces as the claim says — a bare array is returned as-is, an object
yields its first array-valued field (in key order), every other parsed
value and every failure yields the empty array — while the variant in the
README listing returns the parsed value unchanged (empty array only when
the call or parse throws). -/
theorem c8_amended_coercion (term : String) (rights : List HumanRight) :
    (∀ elems, Basic.getSemanticRights term rights (.ok (some (.arr elems))) = elems)
    ∧ (∀ fields key elems,
        fields.find? (fun f => f.2.isArr) = some (key, .arr elems) →
        Basic.getSemanticRights term rights (.ok (some (.obj fields))) = elems)
    ∧ (∀ fields, fields.find? (fun f => f.2.isArr) = none →
        Basic.getSemanticRights term rights (.ok (some (.obj fields))) = [])
    ∧ (Basic.getSemanticRights term rights (.error ()) = []
        ∧ Basic.getSemanticRights term rights (.ok none) = []
        ∧ Basic.getSemanticRights term rights (.ok (some .null)) = []
        ∧ (∀ b, Basic.getSemanticRights term rights (.ok (some (.bool b))) = [])
        ∧ (∀ q, Basic.getSemanticRights term rights (.ok (some (.num q))) = [])
        ∧ (∀ s, Basic.getSemanticRights term rights (.ok (some (.str s))) = []))
    ∧ ((∀ j, Grounded.getSemanticRights term rights (.ok j) = j)
        ∧ Grounded.getSemanticRights term rights (.error ()) = .arr []) := by
  refine ⟨fun elems => rfl, ?_, ?_, ⟨rfl, rfl, rfl, ?_, ?_, ?_⟩, fun j => rfl, rfl⟩
  · intro fields key elems h
    show Basic.coerceSemantic (.obj fields) = elems
    unfold Basic.coerceSemantic
    rw [show jsonFalsy (.obj fields) = false from rfl, if_neg (by simp)]
    simp [(firstArrayField_find? fields).1 key elems h]
  · intro fields h
    show Basic.coerceSemantic (.obj fields) = []
    unfold Basic.coerceSemantic
    rw [show jsonFalsy (.obj fields) = false from rfl, if_neg (by simp)]
    simp [(firstArrayField_find? fields).2 h]
  · intro b
    cases b <;> rfl
  · intro q
    show Basic.coerceSemantic (.num q) = []
    unfold Basic.coerceSemantic
    rcases h : jsonFalsy (.num q) with _ | _ <;> simp [h]
  · intro s
    show Basic.coerceSemantic (.str s) = []
    unfold Basic.coerceSemantic
    rcases h : jsonFalsy (.str s) with _ | _ <;> simp [h]

/-- Witness for the amended C8, the spec's own scenario: the model nests
the array under an object key and the basic getSemanticRights still
returns the ids. -/
theorem c8_witness :
    Basic.getSemanticRights "education funding" []
        (.ok (some (.obj [("ids", .arr [.str "3", .str "7"])])))
      = [.str "3", .str "7"] :=
  (c8_amended_coercion "education funding" []).2.1
    [("ids", .arr [.str "3", .str "7"])] "ids" [.str "3", .str "7"] rfl

/-- Unfolding of the regional branch when a sub-scope is given. -/
theorem regional_instructions_sub (subScope rightName : String) (hne : subScope ≠ "") :
    getScopeSearchInstructions "Regional" subScope rightName =
      (if jsIncludes (jsToLower subScope) "europe" || jsIncludes (jsToLower subScope) "european" then
        "Search for REGIONAL legal instruments protecting \"" ++ rightName ++ "\"" ++ regionalEuropeTail
      else if jsIncludes (jsToLower subScope) "africa" || jsIncludes (jsToLower subScope) "african" then
        "Search for REGIONAL legal instruments protecting \"" ++ rightName ++ "\"" ++ regionalAfricaTail
      else if jsIncludes (jsToLower subScope) "america" || jsIncludes (jsToLower subScope) "inter-american" then
        "Search for REGIONAL legal instruments protecting \"" ++ rightName ++ "\"" ++ regionalAmericasTail
      else if jsIncludes (jsToLower subScope) "asia" || jsIncludes (jsToLower subScope) "asean" then
        "Search for REGIONAL legal instruments protecting \"" ++ rightName ++ "\"" ++ regionalAsiaTail
      else
        "Search for REGIONAL legal instruments protecting \"" ++ rightName ++ "\"" ++ regionalOtherTail) := by
  unfold getScopeSearchInstructions
  have h3 : (subScope != "") = true := by simpa using hne
  rw [h3]
  rfl

/-- Unfolding of the regional branch with the empty sub-scope. -/
theorem regional_instructions_nosub (rightName : String) :
    getScopeSearchInstructions "Regional" "" rightName =
      "Search for REGIONAL legal instruments protecting \"" ++ rightName ++ "\"" ++
        regionalNoSubScopeTail := by
  unfold getScopeSearchInstructions
  rfl

/-- C9.  For the legal-framework category at Regional scope the composed
instruction is biased by region: a sub-scope naming Europe names the
European Convention on Human Rights, Africa the African Charter, the
Americas the American Convention, Asia the ASEAN Declaration, each
following the branch order of the source; the empty sub-scope yields the
generic instruction naming all four regional systems. -/
theorem c9_regional_branching :
    (∀ subScope rightName : String,
      ((jsIncludes (jsToLower subScope) "europe"
          || jsIncludes (jsToLower subScope) "european") = true →
        jsIncludes (getScopeSearchInstructions "Regional" subScope rightName)
          "European Convention on Human Rights (ECHR)" = true)
      ∧ ((jsIncludes (jsToLower subScope) "europe"
          || jsIncludes (jsToLower subScope) "european") = false →
        (jsIncludes (jsToLower subScope) "africa"
          || jsIncludes (jsToLower subScope) "african") = true →
        jsIncludes (getScopeSearchInstructions "Regional" subScope rightName)
          "African Charter on Human and Peoples\x27 Rights" = true)
      ∧ ((jsIncludes (jsToLower subScope) "europe"
          || jsIncludes (jsToLower subScope) "european") = false →
        (jsIncludes (jsToLower subScope) "africa"
          || jsIncludes (jsToLower subScope) "african") = false →
        (jsIncludes (jsToLower subScope) "america"
          || jsIncludes (jsToLower subScope) "inter-american") = true →
        jsIncludes (getScopeSearchInstructions "Regional" subScope rightName)
          "American Convention on Human Rights" = true)
      ∧ ((jsIncludes (jsToLower subScope) "europe"
          || jsIncludes (jsToLower subScope) "european") = false →
        (jsIncludes (jsToLower subScope) "africa"
          || jsIncludes (jsToLower subScope) "african") = false →
        (jsIncludes (jsToLower subScope) "america"
          || jsIncludes (jsToLower subScope) "inter-american") = false →
        (jsIncludes (jsToLower subScope) "asia"
          || jsIncludes (jsToLower subScope) "asean") = true →
        jsIncludes (getScopeSearchInstructions "Regional" subScope rightName)
          "ASEAN Human Rights Declaration" = true))
    ∧ (∀ rightName : String,
        jsIncludes (getScopeSearchInstructions "Regional" "" rightName)
          "European Convention on Human Rights" = true
        ∧ jsIncludes (getScopeSearchInstructions "Regional" "" rightName)
          "African Charter on Human and Peoples\x27 Rights" = true
        ∧ jsIncludes (getScopeSearchInstructions "Regional" "" rightName)
          "American Convention on Human Rights" = true
        ∧ jsIncludes (getScopeSearchInstructions "Regional" "" rightName)
          "ASEAN Human Rights Declaration" = true) := by
  constructor
  · intro subScope rightName
    refine ⟨?_, ?_, ?_, ?_⟩
    · intro h1
      have hne : subScope ≠ "" := by
        intro he
        subst he
        exact absurd h1 (by decide)
      rw [regional_instructions_sub subScope rightName hne, if_pos h1]
      exact jsIncludes_append_right _ _ _ (by decide)
    · intro h1 h2
      have hne : subScope ≠ "" := by
        intro he
        subst he
        exact absurd h2 (by decide)
      rw [regional_instructions_sub subScope rightName hne,
        if_neg (by simp [h1]), if_pos h2]
      exact jsIncludes_append_right _ _ _ (by decide)
    · intro h1 h2 h3
      have hne : subScope ≠ "" := by
        intro he
        subst he
        exact absurd h3 (by decide)
      rw [regional_instructions_sub subScope rightName hne,
        if_neg (by simp [h1]), if_neg (by simp [h2]), if_pos h3]
      exact jsIncludes_append_right _ _ _ (by decide)
    · intro h1 h2 h3 h4
      have hne : subScope ≠ "" := by
        intro he
        subst he
        exact absurd h4 (by decide)
      rw [regional_instructions_sub subScope rightName hne,
        if_neg (by simp [h1]), if_neg (by simp [h2]), if_neg (by simp [h3]), if_pos h4]
      exact jsIncludes_append_right _ _ _ (by decide)
  · intro rightName
    rw [regional_instructions_nosub]
    exact ⟨jsIncludes_append_right _ _ _ (by decide),
      jsIncludes_append_right _ _ _ (by decide),
      jsIncludes_append_right _ _ _ (by decide),
      jsIncludes_append_right _ _ _ (by decide)⟩

/-- Witness for C9: the sub-scope Europe produces an instruction naming
the European Convention on Human Rights. -/
theorem c9_witness :
    jsIncludes (getScopeSearchInstructions "Regional" "Europe" "Privacy")
      "European Convention on Human Rights (ECHR)" = true :=
  (c9_regional_branching.1 "Europe" "Privacy").1 (by decide)

/-- C10.  Trust and accessibility classification are insensitive to the
letter case of the uri: two uris with the same lowercasing get the same
verdicts, for every category. -/
theorem c10_case_insensitive (u v : String) (type : SourceType)
    (h : jsToLower u = jsToLower v) :
    isTrustedSource u type = isTrustedSource v type
    ∧ isLikelyAccessible u type = isLikelyAccessible v type := by
  constructor
  · unfold isTrustedSource
    rw [h]
  · cases type <;> simp [isLikelyAccessible, h]

/-- Witness for C10: an upper-cased OHCHR uri and its lower-case form
get the same legal-trust verdict. -/
theorem c10_witness :
    jsToLower "https://WWW.OHCHR.ORG/EN/Instruments"
        = jsToLower "https://www.ohchr.org/en/instruments"
    ∧ isTrustedSource "https://WWW.OHCHR.ORG/EN/Instruments" .legal
        = isTrustedSource "https://www.ohchr.org/en/instruments" .legal :=
  ⟨by decide,
   (c10_case_insensitive "https://WWW.OHCHR.ORG/EN/Instruments"
      "https://www.ohchr.org/en/instruments" .legal (by decide)).1⟩

end HRIndex
